import Mathlib

/-
Verification of the credential-and-token authentication layer of the
backend (backend/internal/data/models.go) against its specification.

The Go code is embedded shallowly:
  * wall-clock instants (time.Time) become integers; time.Time.Before is
    strict less-than;
  * the relational datastore behind the pooled handle is a pair of row
    lists (users, tokens); each SQL statement is interpreted by the
    operation it performs on those rows (the schema is the one of the
    spec, section 6); a statement referencing a column the schema does
    not have fails on every execution — the token-store SELECT and
    DELETE key on plainText, which is not a column of the tokens table —
    and a possible transport or timeout failure of a statement is an
    explicit Option String parameter (none = no such failure);
  * the crypto collaborators (bcrypt, sha256, crypto/rand) are not part
    of the repository; they are modelled from the spec as explicit
    function parameters, so every theorem below holds for any digest /
    key-derivation function.
-/

namespace Data

/-- Wall-clock instants, embedded as integers (nanoseconds since the
epoch). time.Time.Before is strict less-than on this embedding. -/
abbrev Time := Int

/-- time.Duration, embedded as an integer number of nanoseconds. -/
abbrev Duration := Int

/-- Mirrors the Go struct User of models.go (id, email, first_name,
last_name, password, created_at, updated_at). The embedded Token field of
the Go struct is omitted: no operation modelled here reads or writes it. -/
structure User where
  id : Nat
  email : String
  first_name : String
  last_name : String
  password : String
  created_at : Time
  updated_at : Time
deriving DecidableEq

/-- Mirrors the Go struct Token of models.go. The token plaintext is kept
as a list of characters so that the byte-level header parsing of
AuthenticationToken can be stated faithfully. -/
structure Token where
  id : Nat
  user_id : Nat
  email : String
  token : List Char
  token_hash : List Nat
  created_at : Time
  updated_at : Time
  expiry : Time
deriving DecidableEq

/-- Modelled from the spec: the relational datastore reached through the
pooled connection handle (missing from src), one list of rows per table of
the schema in section 6 of the spec. Token lookups and deletes key on the
token plaintext, as the spec describes them. -/
structure DB where
  users : List User
  tokens : List Token
deriving DecidableEq

/-- Go len on a string measures UTF-8 bytes; on the character-list
embedding this is the sum of the UTF-8 sizes of the characters. -/
def goLen (s : List Char) : Nat := (s.map Char.utf8Size).sum

/-- strings.Split(s, " "): splits around every space character; the empty
string yields one empty field, and adjacent spaces yield empty fields. -/
def splitOnSpace : List Char → List (List Char)
  | [] => [[]]
  | c :: rest =>
    if c = ' ' then [] :: splitOnSpace rest
    else
      match splitOnSpace rest with
      | [] => [[c]]
      | g :: gs => (c :: g) :: gs

/-- Modelled from the spec: the columns of the tokens table (the
persisted schema of section 6; no migration is under src). The stored
plaintext lives in the token column, the one InsertToken writes. -/
def tokensTableColumns : List String :=
  ["id", "user_id", "email", "token", "token_hash", "created_at",
   "updated_at", "expiry"]

/-- The column name the SQL text of GetByToken and DeleteToken in
models.go selects and filters on. It is not a column of the tokens
table. -/
def tokenLookupColumn : String := "plainText"

/-- The storage error the datastore reports for a statement referencing
the missing column. -/
def errUndefinedColumn : String := "column plainText does not exist"

/-- Token.GetByToken of models.go: runs SELECT ... FROM tokens WHERE
plainText = $1. Against the schema, whose plaintext column is named
token, the statement references an undefined column, so every execution
fails with a storage error that is not sql.ErrNoRows and is returned as
is. The guarded branch records what the lookup would do were the column
present: find the row whose token field equals the plaintext, with
sql.ErrNoRows becoming the not-found error. -/
def Token.GetByToken (db : DB) (plainText : List Char) : Except String Token :=
  if tokensTableColumns.contains tokenLookupColumn then
    match db.tokens.find? (fun t => decide (t.token = plainText)) with
    | some t => .ok t
    | none => .error ("no plainText found with plainText " ++ String.mk plainText)
  else .error errUndefinedColumn

/-- Token.GetUserByToken of models.go: resolves the user row whose id is
the token's user_id. -/
def Token.GetUserByToken (db : DB) (token : Token) : Except String User :=
  match db.users.find? (fun u => decide (u.id = token.user_id)) with
  | some u => .ok u
  | none => .error "no user found with token"

/-- The literal scheme word the authenticator compares against. -/
def bearerLit : List Char := ['B', 'e', 'a', 'r', 'e', 'r']

/-- The tail of Token.AuthenticationToken of models.go, after the header
shape and length checks: token lookup, expiry check, user resolution.
Every storage failure is translated to a generic message. -/
def Token.authResolve (db : DB) (now : Time) (tk : List Char) : Except String User :=
  match Token.GetByToken db tk with
  | .error _ => .error "no matching token found"
  | .ok tokenModel =>
    if tokenModel.expiry < now then .error "token expired"
    else
      match Token.GetUserByToken db tokenModel with
      | .error _ => .error "no matching user found"
      | .ok user => .ok user

/-- Token.AuthenticationToken of models.go, on the raw Authorization
header value: empty header, then strings.Split on a single space with an
exactly-two-parts Bearer shape check, then the 26-byte length check, then
the lookup / expiry / user pipeline. The function only reads; the
datastore is returned unchanged, which the second component records. -/
def Token.AuthenticationToken (db : DB) (now : Time) (header : List Char) :
    Except String User × DB :=
  if header = [] then (.error "no token provided", db)
  else
    match splitOnSpace header with
    | [scheme, tk] =>
      if scheme ≠ bearerLit then (.error "invalid token format", db)
      else if goLen tk ≠ 26 then (.error "invalid token length", db)
      else (Token.authResolve db now tk, db)
    | _ => (.error "invalid token format", db)

/-- An Authorization header of the wire shape carrying the token value tk. -/
def bearerHeader (tk : List Char) : List Char := bearerLit ++ ' ' :: tk

/-- Token.DeleteToken of models.go: runs DELETE FROM tokens WHERE
plainText = $1. A transport or timeout failure of ExecContext is the
execOutcome parameter and surfaces first; otherwise the statement reaches
the datastore, which rejects the undefined column plainText, so the call
errors and the rows are unchanged. The guarded branch records what the
delete would do were the column present: remove the rows whose token
field equals the plaintext, succeeding even when none matches. -/
def Token.DeleteToken (execOutcome : Option String) (db : DB) (plainText : List Char) :
    Option String × DB :=
  match execOutcome with
  | some e => (some e, db)
  | none =>
    if tokensTableColumns.contains tokenLookupColumn then
      (none, { db with tokens := db.tokens.filter (fun t => decide (t.token ≠ plainText)) })
    else (some errUndefinedColumn, db)

/-- Token.InsertToken of models.go: first deletes any row whose token
equals the new token's plaintext (via DeleteToken, surfacing its failure),
then inserts one row whose created_at and updated_at are time.Now() at
insertion, ignoring the caller-supplied timestamps; newId stands for the
server-generated primary key. -/
def Token.InsertToken (delOutcome insOutcome : Option String) (now : Time) (newId : Nat)
    (db : DB) (token : Token) : Option String × DB :=
  match Token.DeleteToken delOutcome db token.token with
  | (some e, db1) => (some e, db1)
  | (none, db1) =>
    match insOutcome with
    | some e => (some e, db1)
    | none =>
      (none, { db1 with tokens := db1.tokens ++
        [{ id := newId, user_id := token.user_id, email := token.email,
           token := token.token, token_hash := token.token_hash,
           created_at := now, updated_at := now, expiry := token.expiry }] })

/-- User.Delete of models.go: one DELETE keyed on the user id; a DELETE
matching no row is a successful execution, so only an execution failure
yields an error. -/
def User.Delete (execOutcome : Option String) (db : DB) (id : Nat) :
    Option String × DB :=
  match execOutcome with
  | some e => (some e, db)
  | none =>
    (none, { db with users := db.users.filter (fun u => decide (u.id ≠ id)) })

/-- The standard base32 alphabet used by encoding/base32.StdEncoding. -/
def base32Alphabet : List Char :=
  ['A', 'B', 'C', 'D', 'E', 'F', 'G', 'H', 'I', 'J', 'K', 'L', 'M',
   'N', 'O', 'P', 'Q', 'R', 'S', 'T', 'U', 'V', 'W', 'X', 'Y', 'Z',
   '2', '3', '4', '5', '6', '7']

/-- The eight bits of a byte, most significant first. -/
def byteBits (b : Nat) : List Bool :=
  [b.testBit 7, b.testBit 6, b.testBit 5, b.testBit 4,
   b.testBit 3, b.testBit 2, b.testBit 1, b.testBit 0]

/-- The bit stream of a byte sequence, most significant bit first. -/
def bytesBits (bs : List Nat) : List Bool := bs.flatMap byteBits

/-- Groups a bit stream into 5-bit quanta; a final quantum of fewer than
five bits is kept short here and zero-padded on the right by chunkVal,
exactly as encoding/base32 left-aligns the remaining bits. -/
def chunk5 : List Bool → List (List Bool)
  | a :: b :: c :: d :: e :: rest => [a, b, c, d, e] :: chunk5 rest
  | [] => []
  | rest => [rest]

/-- The value of one (possibly short) quantum: its bits read most
significant first, shifted left so a short final quantum is zero-padded on
the right to five bits. -/
def chunkVal (c : List Bool) : Nat :=
  (c.foldl (fun a b => 2 * a + (if b then 1 else 0)) 0) * 2 ^ (5 - c.length)

/-- The alphabet character of a 5-bit value. -/
def base32Char (n : Nat) : Char := base32Alphabet.getD n 'A'

/-- base32.StdEncoding.WithPadding(base32.NoPadding).EncodeToString:
5-bit big-endian quanta of the byte stream mapped through the standard
alphabet, no padding characters. -/
def base32EncodeNoPad (bs : List Nat) : List Char :=
  (chunk5 (bytesBits bs)).map (fun c => base32Char (chunkVal c))

/-- Token.GenerateToken of models.go. The crypto/rand read is the randRes
parameter (modelled from the spec: a cryptographically secure random
source whose failure is fatal and not retried); sha is the sha256 digest
collaborator, modelled from the spec as an arbitrary digest function. The
token starts from userID and expiry = now + ttl, its plaintext is the
unpadded base32 encoding of the 16 random bytes, and its hash is the
digest of that exact plaintext. -/
def Token.GenerateToken (sha : List Char → List Nat) (now : Time)
    (randRes : Except String (List Nat)) (userID : Nat) (ttl : Duration) :
    Except String Token :=
  match randRes with
  | .error e => .error e
  | .ok randomBytes =>
    let plain := base32EncodeNoPad randomBytes
    .ok { id := 0, user_id := userID, email := "", token := plain,
          token_hash := sha plain, created_at := 0, updated_at := 0,
          expiry := now + ttl }

/-- Modelled from the spec: a bcrypt hash value (the adaptive, salted
hashing primitive, absent from src) records its cost factor, its salt and
the derived key of salt and password. -/
structure BcryptHash where
  cost : Nat
  salt : Nat
  key : Nat
deriving DecidableEq

/-- The error bcrypt.ErrMismatchedHashAndPassword. -/
def errMismatchedHashAndPassword : String :=
  "crypto/bcrypt: hashedPassword is not the hash of the given password"

/-- The error bcrypt reports for a stored value that does not parse as a
bcrypt hash (a corrupted hash). -/
def errHashTooShort : String :=
  "crypto/bcrypt: hashedSecret too short to be a bcrypted password"

/-- Modelled from the spec: bcrypt.GenerateFromPassword with the key
derivation function and the drawn salt as parameters; a cost above 31 is
rejected, a cost below 4 falls back to the default cost 10. -/
def bcryptGenerateFromPassword (kdf : Nat → Nat → String → Nat) (salt : Nat)
    (password : String) (cost : Nat) : Except String BcryptHash :=
  if cost > 31 then
    .error ("crypto/bcrypt: cost " ++ toString cost ++ " is outside allowed range")
  else
    let c := if cost < 4 then 10 else cost
    .ok { cost := c, salt := salt, key := kdf c salt password }

/-- Modelled from the spec: bcrypt.CompareHashAndPassword; parse recovers
the structured hash from the stored string (none = corrupted stored
value); on a well-formed hash the candidate matches exactly when the key
derived with the stored cost and salt equals the stored key. -/
def bcryptCompareHashAndPassword (kdf : Nat → Nat → String → Nat)
    (parse : String → Option BcryptHash) (hashedPassword password : String) :
    Option String :=
  match parse hashedPassword with
  | none => some errHashTooShort
  | some h =>
    if kdf h.cost h.salt password = h.key then none
    else some errMismatchedHashAndPassword

/-- User.PasswordMatches of models.go: a mismatch error becomes the
boolean false with no error, any other comparison failure is propagated,
and a successful comparison is the boolean true. -/
def User.PasswordMatches (kdf : Nat → Nat → String → Nat)
    (parse : String → Option BcryptHash) (u : User) (password : String) :
    Bool × Option String :=
  match bcryptCompareHashAndPassword kdf parse u.password password with
  | some err =>
    if err = errMismatchedHashAndPassword then (false, none) else (false, some err)
  | none => (true, none)

/-- One observable step of User.Insert: an INSERT attempt (its zero-based
index and the bcrypt hash it sends as the password column), or a
time.Sleep of the given number of seconds. -/
inductive Event where
  | insertAttempt (i : Nat) (hashedPassword : BcryptHash)
  | sleepSeconds (n : Nat)
deriving DecidableEq

/-- The retry loop of User.Insert of models.go: remaining attempts count
down from retryCount = 3; q gives the outcome of the INSERT ... returning
id at each zero-based attempt index; on success the function returns the
literal 0 (the scanned generated id is assigned to a by-value copy of the
argument and discarded); between two consecutive failed attempts it sleeps
2 seconds; when the loop exhausts, a single error names the attempt count
and wraps the last storage error. -/
def insertAttempts (q : Nat → Except String Nat) (h : BcryptHash) :
    Nat → Nat → String → (Nat × Option String) × List Event
  | 0, _, lastErr =>
    ((0, some ("failed to insert user after 3 attempts: " ++ lastErr)), [])
  | remaining + 1, retries, _ =>
    match q retries with
    | .ok _ => ((0, none), [Event.insertAttempt retries h])
    | .error e =>
      let rest := insertAttempts q h remaining (retries + 1) e
      (rest.1,
        (Event.insertAttempt retries h ::
          (if remaining = 0 then [] else [Event.sleepSeconds 2])) ++ rest.2)

/-- User.Insert of models.go: first hashes the plaintext password with
bcrypt at the fixed cost factor 12 (returning at once if hashing fails),
then runs the INSERT with up to retryCount = 3 attempts. The second
component is the trace of storage attempts and sleeps. -/
def User.Insert (kdf : Nat → Nat → String → Nat) (salt : Nat)
    (q : Nat → Except String Nat) (user : User) :
    (Nat × Option String) × List Event :=
  match bcryptGenerateFromPassword kdf salt user.password 12 with
  | .error e => ((0, some e), [])
  | .ok hashedPassword => insertAttempts q hashedPassword 3 0 ""

/-! Helper lemmas about the embedding. -/

theorem splitOnSpace_no_space (l : List Char) (h : ∀ c ∈ l, c ≠ ' ') :
    splitOnSpace l = [l] := by
  induction l with
  | nil => rfl
  | cons c t ih =>
    have hc : c ≠ ' ' := h c (by simp)
    have ht : splitOnSpace t = [t] := ih (fun x hx => h x (by simp [hx]))
    simp [splitOnSpace, hc, ht]

theorem splitOnSpace_append (l1 l2 : List Char) (h : ∀ c ∈ l1, c ≠ ' ') :
    splitOnSpace (l1 ++ ' ' :: l2) = l1 :: splitOnSpace l2 := by
  induction l1 with
  | nil => simp [splitOnSpace]
  | cons c t ih =>
    have hc : c ≠ ' ' := h c (by simp)
    have ht : splitOnSpace (t ++ ' ' :: l2) = t :: splitOnSpace l2 :=
      ih (fun x hx => h x (by simp [hx]))
    simp [splitOnSpace, hc, ht]

theorem goLen_eq_length (s : List Char) (h : ∀ c ∈ s, Char.utf8Size c = 1) :
    goLen s = s.length := by
  induction s with
  | nil => rfl
  | cons c t ih =>
    have hc : Char.utf8Size c = 1 := h c (by simp)
    have ht : goLen t = t.length := ih (fun x hx => h x (by simp [hx]))
    simp [goLen, List.map_cons, List.sum_cons, hc] at *
    omega

/-- A well-shaped Bearer header whose token value has no space character
and 26 bytes passes the shape and length checks and is handed to the token
lookup pipeline. -/
theorem authenticationToken_bearer (db : DB) (now : Time) (tk : List Char)
    (hsp : ∀ c ∈ tk, c ≠ ' ') (hlen : goLen tk = 26) :
    Token.AuthenticationToken db now (bearerHeader tk) =
      (Token.authResolve db now tk, db) := by
  have hb : ∀ c ∈ bearerLit, c ≠ ' ' := by decide
  have hsplit : splitOnSpace (bearerLit ++ ' ' :: tk) = bearerLit :: splitOnSpace tk :=
    splitOnSpace_append bearerLit tk hb
  rw [Token.AuthenticationToken, bearerHeader,
    if_neg (by simp [bearerLit] : ¬ bearerLit ++ ' ' :: tk = []),
    hsplit, splitOnSpace_no_space tk hsp]
  simp [hlen]

theorem chunk5_length : ∀ l : List Bool, (chunk5 l).length = (l.length + 4) / 5
  | [] => by simp [chunk5]
  | [a] => by simp [chunk5]
  | [a, b] => by simp [chunk5]
  | [a, b, c] => by simp [chunk5]
  | [a, b, c, d] => by simp [chunk5]
  | a :: b :: c :: d :: e :: rest => by
    have ih := chunk5_length rest
    simp [chunk5, ih]
    omega

theorem bytesBits_length (bs : List Nat) : (bytesBits bs).length = 8 * bs.length := by
  induction bs with
  | nil => rfl
  | cons b t ih =>
    simp [bytesBits, byteBits] at *
    omega

theorem getD_default_or_mem {α : Type} (l : List α) (n : Nat) (d : α) :
    l.getD n d = d ∨ l.getD n d ∈ l := by
  induction l generalizing n with
  | nil => left; rfl
  | cons a t ih =>
    cases n with
    | zero => right; simp [List.getD]
    | succ m =>
      rcases ih m with h | h
      · left; simpa [List.getD] using h
      · right
        have : (a :: t).getD (m + 1) d = t.getD m d := by simp [List.getD]
        rw [this]
        exact List.mem_cons_of_mem a h

theorem base32Char_mem (n : Nat) : base32Char n ∈ base32Alphabet := by
  rcases getD_default_or_mem base32Alphabet n 'A' with h | h
  · rw [base32Char, h]; decide
  · exact h

/-! Claim theorems. -/

/-- C1 (code bug): a stored token whose expiry 100 lies strictly before
the current time 101, presented through a well-shaped Bearer header, is
rejected — but with no matching token found, not token expired: the
SELECT of GetByToken keys on the undefined column plainText, so the
lookup fails for every stored row and the expiry branch of
AuthenticationToken is unreachable. The stored rows are left intact. -/
theorem c1_expired_token_rejected_as_not_found :
    Token.AuthenticationToken
      ⟨[⟨1, "u", "", "", "H", 0, 0⟩],
       [⟨9, 1, "u", List.replicate 26 'A', [], 0, 0, 100⟩]⟩
      101 (bearerHeader (List.replicate 26 'A')) =
      (.error "no matching token found",
       ⟨[⟨1, "u", "", "", "H", 0, 0⟩],
        [⟨9, 1, "u", List.replicate 26 'A', [], 0, 0, 100⟩]⟩) := by rfl

/-- C2 (code bug): with the key-derivation function c + s + length, salt 5
and a storage that generates id 7 on the first attempt, Insert hashes the
password "pw" at the fixed cost 12 before the single insert attempt (the
attempt event carries the bcrypt hash with cost 12, salt 5, key
12 + 5 + 2 = 19), but the call returns the literal 0, not the generated
id 7: the scanned id is assigned to a by-value copy and discarded. -/
theorem c2_insert_returns_zero_not_generated_id :
    User.Insert (fun c s p => c + s + p.length) 5 (fun _ => .ok 7)
      ⟨0, "e", "", "", "pw", 0, 0⟩ =
      ((0, none), [Event.insertAttempt 0 ⟨12, 5, 19⟩]) := by rfl

/-- C3 (counterexample): the claim says deleting a non-existent id is
reported as a StorageError; on an empty users table, Delete 42 returns no
error. -/
theorem c3_counterexample_delete_missing_id_no_error :
    (User.Delete none ⟨[], []⟩ 42).1 = none := by rfl

/-- C3 (amended): Delete(id) removes every row with the given id and
keeps the others; deleting an id for which no row exists succeeds
silently (the code never inspects the affected-row count), and only an
execution failure of the DELETE statement is reported, leaving the rows
unchanged. -/
theorem c3_user_delete_semantics (db : DB) (id : Nat) :
    (User.Delete none db id).1 = none ∧
    (∀ u ∈ (User.Delete none db id).2.users, u.id ≠ id) ∧
    (∀ u ∈ db.users, u.id ≠ id → u ∈ (User.Delete none db id).2.users) ∧
    ((∀ u ∈ db.users, u.id ≠ id) → User.Delete none db id = (none, db)) ∧
    (∀ e, User.Delete (some e) db id = (some e, db)) := by
  refine ⟨rfl, ?_, ?_, ?_, fun e => rfl⟩
  · intro u hu
    have := (List.mem_filter.mp hu).2
    simpa using this
  · intro u hu hne
    exact List.mem_filter.mpr ⟨hu, by simpa using hne⟩
  · intro h
    have hf : db.users.filter (fun u => decide (u.id ≠ id)) = db.users :=
      List.filter_eq_self.mpr (fun a ha => by simpa using h a ha)
    show (none, ({ db with users := db.users.filter (fun u => decide (u.id ≠ id)) } : DB)) =
      (none, db)
    rw [hf]

/-- C3 (witness): on an empty users table, deleting id 42 returns no
error and leaves the table as it was. -/
theorem c3_user_delete_semantics_witness :
    User.Delete none ⟨[], []⟩ 42 = (none, ⟨[], []⟩) :=
  (c3_user_delete_semantics ⟨[], []⟩ 42).2.2.2.1 (by simp)

/-- C5 (code bug): InsertToken never succeeds: its first step
DeleteToken executes DELETE ... WHERE plainText = $1, the tokens table
has no plainText column, so the delete step errors, InsertToken returns
that error and inserts nothing; the follow-up GetByToken fails on the
same undefined column. Evaluated at a concrete token against the empty
store: no round-trip takes place. -/
theorem c5_insertToken_always_errors :
    Token.InsertToken none none 7 1 ⟨[], []⟩
      ⟨0, 1, "u", List.replicate 26 'A', [], 3, 3, 100⟩ =
      (some errUndefinedColumn, ⟨[], []⟩) ∧
    Token.GetByToken ⟨[], []⟩ (List.replicate 26 'A') =
      .error errUndefinedColumn := ⟨rfl, rfl⟩

/-- C7 (code bug): DeleteToken errors on every call: its DELETE keys on
the undefined column plainText. With a matching row stored, the call
errors and the row stays; with no matching row (the claim's missing
token), the call errors too, contrary to the claimed idempotent
success. -/
theorem c7_deleteToken_always_errors :
    Token.DeleteToken none
      ⟨[], [⟨9, 1, "u", List.replicate 26 'A', [], 0, 0, 100⟩]⟩
      (List.replicate 26 'A') =
      (some errUndefinedColumn,
       ⟨[], [⟨9, 1, "u", List.replicate 26 'A', [], 0, 0, 100⟩]⟩) ∧
    Token.DeleteToken none ⟨[], []⟩ (List.replicate 26 'A') =
      (some errUndefinedColumn, ⟨[], []⟩) := ⟨rfl, rfl⟩

/-- C4: whenever the random source yields its 16 bytes, GenerateToken
returns a token whose plaintext is 26 characters over the unpadded base32
alphabet, whose token_hash is the digest of exactly that plaintext, and
whose expiry is now + ttl; this holds for every digest function sha. -/
theorem c4_generateToken_shape (sha : List Char → List Nat) (now : Time)
    (ttl : Duration) (userID : Nat) (bs : List Nat) (hlen : bs.length = 16) :
    ∃ tok, Token.GenerateToken sha now (.ok bs) userID ttl = .ok tok ∧
      tok.token.length = 26 ∧ (∀ c ∈ tok.token, c ∈ base32Alphabet) ∧
      tok.token_hash = sha tok.token ∧ tok.expiry = now + ttl ∧
      tok.user_id = userID := by
  refine ⟨_, rfl, ?_, ?_, rfl, rfl, rfl⟩
  · show (base32EncodeNoPad bs).length = 26
    rw [base32EncodeNoPad, List.length_map, chunk5_length, bytesBits_length, hlen]
  · intro c hc
    have hc2 : c ∈ (chunk5 (bytesBits bs)).map (fun ch => base32Char (chunkVal ch)) := hc
    rcases List.mem_map.mp hc2 with ⟨ch, _, rfl⟩
    exact base32Char_mem _

/-- C4 (witness): sixteen zero bytes yield a 26-character alphabet-only
token with the digest of its own plaintext and expiry 5 + 7. -/
theorem c4_generateToken_shape_witness :
    ∃ tok, Token.GenerateToken (fun _ => []) 5 (.ok (List.replicate 16 0)) 1 7 = .ok tok ∧
      tok.token.length = 26 ∧ (∀ c ∈ tok.token, c ∈ base32Alphabet) ∧
      tok.token_hash = (fun _ => ([] : List Nat)) tok.token ∧ tok.expiry = 5 + 7 ∧
      tok.user_id = 1 :=
  c4_generateToken_shape (fun _ => []) 5 7 1 (List.replicate 16 0) (by simp)

/-- C6: the authenticator's checks are evaluated in order and each is
terminal: an empty header fails as no token provided (MalformedHeader); a
header whose scheme is not Bearer, such as Token abc, fails as invalid
token format (MalformedHeader); a Bearer header whose token literal is not
26 bytes, such as Bearer ab, fails as invalid token length; a well-shaped
26-character token over the base32 alphabet with no stored row fails as no
matching token found (TokenNotFound). -/
theorem c6_auth_reject_order :
    (∀ (db : DB) (now : Time),
      Token.AuthenticationToken db now [] = (.error "no token provided", db)) ∧
    (∀ (db : DB) (now : Time),
      Token.AuthenticationToken db now ("Token abc".toList) =
        (.error "invalid token format", db)) ∧
    (∀ (db : DB) (now : Time),
      Token.AuthenticationToken db now ("Bearer ab".toList) =
        (.error "invalid token length", db)) ∧
    (∀ (db : DB) (now : Time) (tk : List Char), tk.length = 26 →
      (∀ c ∈ tk, c ∈ base32Alphabet) → (∀ t ∈ db.tokens, t.token ≠ tk) →
      Token.AuthenticationToken db now (bearerHeader tk) =
        (.error "no matching token found", db)) := by
  refine ⟨fun db now => rfl, fun db now => rfl, fun db now => rfl, ?_⟩
  intro db now tk hlen halpha _hnone
  have h1 : ∀ c ∈ base32Alphabet, c ≠ ' ' ∧ Char.utf8Size c = 1 := by decide
  have hsp : ∀ c ∈ tk, c ≠ ' ' := fun c hc => (h1 c (halpha c hc)).1
  have hsz : goLen tk = 26 := by
    rw [goLen_eq_length tk (fun c hc => (h1 c (halpha c hc)).2), hlen]
  rw [authenticationToken_bearer db now tk hsp hsz]
  rfl

/-- C6 (witness): with an empty token store, a well-shaped 26-character
alphabet token is rejected as no matching token found. -/
theorem c6_auth_reject_order_witness :
    Token.AuthenticationToken ⟨[], []⟩ 0 (bearerHeader (List.replicate 26 'A')) =
      (.error "no matching token found", ⟨[], []⟩) :=
  c6_auth_reject_order.2.2.2 ⟨[], []⟩ 0 (List.replicate 26 'A')
    (by simp) (by decide) (by simp)

/-- C8: only Insert retries: when every attempt fails, it makes exactly
three insert attempts, sleeps 2 seconds between consecutive attempts, and
surfaces the single error naming the attempt count and wrapping the last
storage error; when the first attempt succeeds, there is exactly one
attempt and no sleep; and the failure paths of DeleteToken, Delete,
InsertToken and GenerateToken surface the failure at once, with no second
attempt and no state change. -/
theorem c8_only_insert_retries :
    (∀ (kdf : Nat → Nat → String → Nat) (salt : Nat) (e : Nat → String) (user : User),
      User.Insert kdf salt (fun i => .error (e i)) user =
        ((0, some ("failed to insert user after 3 attempts: " ++ e 2)),
         [Event.insertAttempt 0 ⟨12, salt, kdf 12 salt user.password⟩,
          Event.sleepSeconds 2,
          Event.insertAttempt 1 ⟨12, salt, kdf 12 salt user.password⟩,
          Event.sleepSeconds 2,
          Event.insertAttempt 2 ⟨12, salt, kdf 12 salt user.password⟩])) ∧
    (∀ (kdf : Nat → Nat → String → Nat) (salt g : Nat) (user : User),
      User.Insert kdf salt (fun _ => .ok g) user =
        ((0, none), [Event.insertAttempt 0 ⟨12, salt, kdf 12 salt user.password⟩])) ∧
    (∀ (e : String) (db : DB) (p : List Char),
      Token.DeleteToken (some e) db p = (some e, db)) ∧
    (∀ (e : String) (db : DB) (id : Nat),
      User.Delete (some e) db id = (some e, db)) ∧
    (∀ (e : String) (io : Option String) (now : Time) (newId : Nat) (db : DB) (t : Token),
      Token.InsertToken (some e) io now newId db t = (some e, db)) ∧
    (∀ (sha : List Char → List Nat) (now : Time) (uid : Nat) (ttl : Duration) (e : String),
      Token.GenerateToken sha now (.error e) uid ttl = .error e) :=
  ⟨fun _ _ _ _ => rfl, fun _ _ _ _ => rfl,
   fun _ _ _ => rfl, fun _ _ _ => rfl,
   fun _ _ _ _ _ _ => rfl, fun _ _ _ _ _ => rfl⟩

/-- C9: PasswordMatches returns the boolean false with no error when the
candidate does not match the stored well-formed hash, true with no error
when it matches, and propagates a corrupted stored hash as a hard error;
this holds for every key-derivation function and every parse of the
stored string. -/
theorem c9_passwordMatches_outcomes (kdf : Nat → Nat → String → Nat)
    (parse : String → Option BcryptHash) (u : User) (password : String) :
    (∀ h, parse u.password = some h → kdf h.cost h.salt password = h.key →
      User.PasswordMatches kdf parse u password = (true, none)) ∧
    (∀ h, parse u.password = some h → kdf h.cost h.salt password ≠ h.key →
      User.PasswordMatches kdf parse u password = (false, none)) ∧
    (parse u.password = none →
      User.PasswordMatches kdf parse u password = (false, some errHashTooShort)) := by
  refine ⟨?_, ?_, ?_⟩
  · intro h hp hk
    simp [User.PasswordMatches, bcryptCompareHashAndPassword, hp, hk]
  · intro h hp hk
    simp [User.PasswordMatches, bcryptCompareHashAndPassword, hp, hk]
  · intro hp
    have hne : errHashTooShort ≠ errMismatchedHashAndPassword := by decide
    simp [User.PasswordMatches, bcryptCompareHashAndPassword, hp, hne]

/-- C9 (witness): with kdf c s p = c + s + length p, a stored hash of
cost 12, salt 5 and key 19 matches the candidate of length 2. -/
theorem c9_passwordMatches_outcomes_witness :
    User.PasswordMatches (fun c s p => c + s + p.length)
      (fun s => if s = "H" then some ⟨12, 5, 19⟩ else none)
      ⟨0, "e", "", "", "H", 0, 0⟩ "pw" = (true, none) :=
  (c9_passwordMatches_outcomes (fun c s p => c + s + p.length)
      (fun s => if s = "H" then some ⟨12, 5, 19⟩ else none)
      ⟨0, "e", "", "", "H", 0, 0⟩ "pw").1 ⟨12, 5, 19⟩ (by rfl) (by rfl)

/-- C10 (counterexample): the claim quantifies over every 26-character
token literal; the 26-character literal with a space at position 13 makes
the split yield three parts, so the shape check fails with invalid token
format and the lookup is never reached, and the 26-character literal of
two-byte characters fails the length check, which counts bytes. -/
theorem c10_counterexample_space_and_multibyte :
    (("AAAAAAAAAAAAA BBBBBBBBBBBB".toList.length = 26) ∧
      (Token.AuthenticationToken ⟨[], []⟩ 0
        (bearerHeader "AAAAAAAAAAAAA BBBBBBBBBBBB".toList)).1 =
        .error "invalid token format") ∧
    (("éééééééééééééééééééééééééé".toList.length = 26) ∧
      (Token.AuthenticationToken ⟨[], []⟩ 0
        (bearerHeader "éééééééééééééééééééééééééé".toList)).1 =
        .error "invalid token length") :=
  ⟨⟨by decide, by rfl⟩, ⟨by decide, by rfl⟩⟩

/-- C10 (amended): the authenticator checks only the shape and the byte
length of the token literal, never its alphabet: for every token value
with no space character and 26 bytes, the shape and length checks pass and
the request proceeds to the token store lookup pipeline on that exact
value. -/
theorem c10_alphabet_not_validated (db : DB) (now : Time) (tk : List Char)
    (hsp : ∀ c ∈ tk, c ≠ ' ') (hlen : goLen tk = 26) :
    Token.AuthenticationToken db now (bearerHeader tk) =
      (Token.authResolve db now tk, db) :=
  authenticationToken_bearer db now tk hsp hlen

/-- C10 (witness): twenty-six letters z, none of which is in the base32
alphabet, pass the shape and length checks and reach the lookup. -/
theorem c10_alphabet_not_validated_witness :
    (∀ c ∈ List.replicate 26 'z', c ∉ base32Alphabet) ∧
    Token.AuthenticationToken ⟨[], []⟩ 0 (bearerHeader (List.replicate 26 'z')) =
      (Token.authResolve ⟨[], []⟩ 0 (List.replicate 26 'z'), ⟨[], []⟩) :=
  ⟨by decide,
   c10_alphabet_not_validated ⟨[], []⟩ 0 (List.replicate 26 'z') (by decide) (by decide)⟩

end Data
